import Mathlib

/-!
Verification of the agent-orchestration core of the maowrag backend
(src/backend/src/agents/): the confidence-gated routing strategy, the
parallel fan-out strategy, the planning strategy, tool invocation, agent
id derivation, and the streaming chunker.  External effects (LLM calls,
tool calls, JSON parsing of LLM replies) are modelled as oracle values
recording the outcome of the corresponding call in one run; the control
flow around them is translated from the Python source.
-/

set_option autoImplicit false

namespace Maowrag

/-- A chat turn (llama_index ChatMessage): role and content. -/
structure ChatMessage where
  role : String
  content : String
deriving DecidableEq, Repr

/-- A registered delegate agent as `RouterAgent` sees it: a display name and
an `achat` entry point (query, chat history → response text).  Delegate
exceptions are outside the claims about routing, so `achat` is total here. -/
structure RAgent where
  name : String
  achat : String → List ChatMessage → String

/-- The judge reply of `RouterAgent._validate_response` after
`json.loads`: a JSON object whose keys may each be absent — `RouterAgent.run`
reads them with `.get(key, default)`. -/
structure JudgeDict where
  is_valid : Option Bool
  score : Option ℚ
  reasoning : Option String
  needs_refinement : Option Bool
  refinement_suggestions : Option String
deriving DecidableEq, Repr

/-- The accepting default built by `RouterAgent._validate_response` when the
judge text fails JSON parsing (router_agent.py lines 154-160). -/
def defaultValidation : JudgeDict where
  is_valid := some true
  score := some (3/4)
  reasoning := some "Failed to parse validation result"
  needs_refinement := some false
  refinement_suggestions := some ""

/-- `RouterAgent._validate_response`: the judge call either yields a parsed
JSON object (`some d`) or raises `json.JSONDecodeError` (`none`), in which
case the accepting default is returned. -/
def RouterAgent.validate_response (judgeParse : Option JudgeDict) : JudgeDict :=
  match judgeParse with
  | some d => d
  | none => defaultValidation

/-- `RouterAgent._refine_response`: the refinement LLM call either succeeds
with improved text (`some r`) or raises (`none`), in which case the original
agent response is returned (router_agent.py lines 193-196). -/
def RouterAgent.refine_response (refineCall : Option String) (agent_response : String) : String :=
  match refineCall with
  | some r => r
  | none => agent_response

/-- External effects of one `RouterAgent.run`: the direct LLM capability
(prompt, history → completion), the outcome of `_classify_request`
(selected agent or none, confidence, reasoning), the parse outcome of the
validation judge reply, and the outcome of the refinement call. -/
structure RouterEnv where
  llm : String → List ChatMessage → String
  classify : Option RAgent × ℚ × String
  judgeParse : Option JudgeDict
  refineCall : Option String

/-- Observable delegation events of one `RouterAgent.run`, in order. -/
inductive RouterEvent where
  | llmDirect (prompt : String) (history : List ChatMessage)
  | agentChat (agentName : String) (query : String) (history : List ChatMessage)
  | refine
deriving DecidableEq, Repr

/-- `RouterAgent.run` (router_agent.py lines 198-285) for a run in which
delegation itself does not raise: classify, fall back to the direct LLM when
no agent was selected or confidence is below 0.6 (the fallback prompt is the
literal prefix `"Answer this question: "` followed by the query), otherwise
delegate to the selected agent, validate, and refine when the validation
gate fires.  Returns the response text paired with the delegation events. -/
def RouterAgent.run (env : RouterEnv) (query : String)
    (chat_history : List ChatMessage) (validation_threshold : ℚ) :
    String × List RouterEvent :=
  match env.classify with
  | (none, _, _) =>
      (env.llm ("Answer this question: " ++ query) chat_history,
       [RouterEvent.llmDirect ("Answer this question: " ++ query) chat_history])
  | (some agent, confidence, _) =>
      if confidence < 6/10 then
        (env.llm ("Answer this question: " ++ query) chat_history,
         [RouterEvent.llmDirect ("Answer this question: " ++ query) chat_history])
      else
        let agent_response := agent.achat query chat_history
        let validation_result := RouterAgent.validate_response env.judgeParse
        if validation_result.needs_refinement.getD false = true ∧
            validation_result.score.getD 1 < validation_threshold then
          (RouterAgent.refine_response env.refineCall agent_response,
           [RouterEvent.agentChat agent.name query chat_history, RouterEvent.refine])
        else
          (agent_response,
           [RouterEvent.agentChat agent.name query chat_history])

/-- An agent as the parallel fan-out sees it: id, display name, and `achat`,
which either returns text (`Except.ok`) or raises an exception carrying the
given message (`Except.error`). -/
structure PAgent where
  id : String
  name : String
  achat : String → List ChatMessage → Except String String

/-- Python dict assignment `d[k] = v`: when the key is already present its
value is overwritten in place (the entry keeps its position); otherwise the
new entry is appended, preserving insertion order. -/
def dictSet {β : Type} (k : String) (v : β) : List (String × β) → List (String × β)
  | [] => [(k, v)]
  | (k1, v1) :: rest => if k1 = k then (k1, v) :: rest else (k1, v1) :: dictSet k v rest

/-- `BaseMultiAgent._register_agent`: `self.agent_registry[agent.id] = agent`. -/
def register_agent (registry : List (String × PAgent)) (agent : PAgent) :
    List (String × PAgent) :=
  dictSet agent.id agent registry

/-- The string recorded for one task of `ParallelAgent._execute_parallel`:
the result on success, `"Error: <message>"` when the task raised
(parallel_agent.py lines 74-82). -/
def taskOutcome (a : PAgent) (query : String) (hist : List ChatMessage) : String :=
  match a.achat query hist with
  | Except.ok r => r
  | Except.error e => "Error: " ++ e

/-- `ParallelAgent._execute_parallel`: one task per agent (in list order),
results collected into a dict keyed by agent *name*; a task that raised is
recorded under its agent name as an inline error string. -/
def ParallelAgent.execute_parallel (agents : List PAgent) (query : String)
    (hist : List ChatMessage) : List (String × String) :=
  agents.foldl (fun results a => dictSet a.name (taskOutcome a query hist) results) []

/-- One labelled block of the integration prompt:
`f"--- {agent_name} Output ---\n{result}\n"`. -/
def formatOutput (name result : String) : String :=
  "--- " ++ name ++ " Output ---\n" ++ result ++ "\n"

/-- Python `"\n".join(xs)`. -/
def joinNl : List String → String
  | [] => ""
  | [x] => x
  | x :: rest => x ++ "\n" ++ joinNl rest

/-- The `Agent Outputs` block of `ParallelAgent._integrate_results`
(parallel_agent.py lines 95-99). -/
def agentOutputsBlock (results : List (String × String)) : String :=
  joinNl (results.map fun p => formatOutput p.1 p.2)

/-- `INTEGRATION_PROMPT.format(user_query, agent_outputs, output_schema)`
from parallel_agent.py, with the placeholders substituted. -/
def integrationPrompt (user_query agent_outputs output_schema : String) : String :=
  "You are responsible for combining outputs from multiple specialized agents into a coherent response.\nEach agent has provided structured data related to its expertise domain.\n\nYour task is to synthesize this information into a comprehensive response that addresses the original query.\n\nOriginal User Query: "
    ++ user_query
    ++ "\n\nAgent Outputs:\n"
    ++ agent_outputs
    ++ "\n\nIf an output schema was provided, please ensure your response conforms to this structure:\n"
    ++ output_schema
    ++ "\n\nPlease provide a comprehensive response that integrates all the information from the specialized agents.\nBe concise and ensure all critical information is included.\n"

/-- `t` occurs as a contiguous substring of `s`. -/
def strContains (s t : String) : Prop := t.data <:+: s.data

/-- Model of one registered tool at `BaseAgent._execute_tool` time: the
outcome of LLM argument synthesis plus `clean_json_response`/`json.loads`
(`Except.error` = that part raised), and the tool invocation `tool.acall`
on the synthesized arguments. -/
structure ToolModel where
  argsParse : Except String String
  acall : String → Except String String

/-- The body of the `try` block of `BaseAgent._execute_tool`: synthesize and
parse arguments, then invoke the tool; the first exception escapes. -/
def tryCallTool (tool : ToolModel) : Except String String :=
  match tool.argsParse with
  | Except.error e => Except.error e
  | Except.ok args => tool.acall args

/-- Python truthiness of the `tool_name` argument: `not tool_name` holds for
`None` and for the empty string. -/
def pyFalsy : Option String → Bool
  | none => true
  | some s => s = ""

/-- `self.tools_dict.get(tool_name)`: lookup by name (a `None` name is not a
key of the dict). -/
def dictGet {β : Type} (d : List (String × β)) : Option String → Option β
  | none => none
  | some key => (d.find? fun p => p.1 = key).map Prod.snd

/-- `BaseAgent._execute_tool` (base.py lines 148-187): returns `Except.ok
none` (Python `None`) when the step needs no tool, the name is falsy, or the
name is not registered; otherwise runs the `try` block, and on an exception
re-raises when the tool was required (at that point `requires_tool` is
always true) and returns `None` otherwise. -/
def BaseAgent.execute_tool (tools_dict : List (String × ToolModel))
    (tool_name : Option String) (description : String) (requires_tool : Bool) :
    Except String (Option String) :=
  if !requires_tool || pyFalsy tool_name then Except.ok none
  else
    match dictGet tools_dict tool_name with
    | none => Except.ok none
    | some tool =>
        match tryCallTool tool with
        | Except.ok result => Except.ok (some result)
        | Except.error e =>
            if requires_tool then Except.error e else Except.ok none

/-- One step object of the plan JSON produced by the planner LLM
(`plan_data["steps"]` entries in `PlanningAgent._get_initial_plan`). -/
structure StepData where
  description : String
  requires_tool : Bool
  tool_name : Option String
deriving DecidableEq, Repr

/-- A `PlanStep` (design/agent_patterns.py): description, optional tool
name, requires-tool flag. -/
structure PlanStep where
  description : String
  tool_name : Option String
  requires_tool : Bool
deriving DecidableEq, Repr

/-- Python `tool_name in self.tools_dict` for the (possibly `None`) value of
`step_data.get("tool_name")`. -/
def toolKnown (toolNames : List String) : Option String → Bool
  | none => false
  | some n => toolNames.contains n

/-- The plan-construction loop of `PlanningAgent._get_initial_plan`
(planning_agent.py lines 103-118): steps that require a tool whose name is
not registered are skipped; every other step is added to the plan. -/
def PlanningAgent.buildPlanSteps (toolNames : List String)
    (stepDatas : List StepData) : List PlanStep :=
  stepDatas.filterMap fun sd =>
    if sd.requires_tool && !toolKnown toolNames sd.tool_name then none
    else some ⟨sd.description, sd.tool_name, sd.requires_tool⟩

/-- The tool-dropping criterion of `_get_initial_plan`, as a filter on an
already-built plan. -/
def PlanningAgent.dropUnknownToolSteps (toolNames : List String)
    (steps : List PlanStep) : List PlanStep :=
  steps.filter fun s => !(s.requires_tool && !toolKnown toolNames s.tool_name)

/-- External effects of one `PlanningAgent.run`: the LLM capability used for
non-tool steps, the registered tools, and `_generate_summary` as a function
of the task and the collected results. -/
structure PlanEnv where
  llm : String → List ChatMessage → String
  tools_dict : List (String × ToolModel)
  summarize : String → List String → String

/-- Observable events of one `PlanningAgent.run`, in order. -/
inductive PlanEvent where
  | stepExec (description : String)
  | summarized (task : String) (results : List String)
deriving DecidableEq, Repr

/-- The step-execution loop of `PlanningAgent.run` (planning_agent.py lines
188-226): `step_num` counts from 1 and the loop breaks once it exceeds
`max_steps`; a tool step calls `_execute_tool` and appends its result when
it is not `None`, re-raising on an exception; a non-tool step asks the LLM
directly with the step description and always appends.  Returns the
collected results together with one `stepExec` event per executed step, or
the propagated error. -/
def PlanningAgent.execPlanSteps (env : PlanEnv) (hist : List ChatMessage)
    (max_steps : Nat) : Nat → List PlanStep → Except String (List String × List PlanEvent)
  | _, [] => Except.ok ([], [])
  | step_num, step :: rest =>
    if max_steps < step_num then Except.ok ([], [])
    else if step.requires_tool then
      match BaseAgent.execute_tool env.tools_dict step.tool_name step.description true with
      | Except.error e => Except.error e
      | Except.ok res =>
          match PlanningAgent.execPlanSteps env hist max_steps (step_num + 1) rest with
          | Except.error e => Except.error e
          | Except.ok (results, events) =>
              Except.ok (res.toList ++ results, PlanEvent.stepExec step.description :: events)
    else
      match PlanningAgent.execPlanSteps env hist max_steps (step_num + 1) rest with
      | Except.error e => Except.error e
      | Except.ok (results, events) =>
          Except.ok (env.llm step.description hist :: results,
                     PlanEvent.stepExec step.description :: events)

/-- `PlanningAgent.run` after plan construction (planning_agent.py lines
187-231): execute the capped steps, then generate the summary exactly once
from the full results list; step errors propagate. -/
def PlanningAgent.run (env : PlanEnv) (query : String) (hist : List ChatMessage)
    (plan : List PlanStep) (max_steps : Nat) : Except String (String × List PlanEvent) :=
  match PlanningAgent.execPlanSteps env hist max_steps 1 plan with
  | Except.error e => Except.error e
  | Except.ok (results, events) =>
      Except.ok (env.summarize query results,
                 events ++ [PlanEvent.summarized query results])

/-- Python `\s` on the characters the claims exercise: space, tab, newline,
carriage return, vertical tab, form feed. -/
def isPySpace (c : Char) : Bool :=
  c = ' ' || c = '\t' || c = '\n' || c = '\r' || c = '\x0b' || c = '\x0c'

/-- The character class kept by `re.sub(r"[^a-zA-Z\s-]", "", name)`: ASCII
letters, whitespace, and hyphens. -/
def keepIdChar (c : Char) : Bool := c.isAlpha || isPySpace c || c = '-'

/-- `re.sub(r"\s+", "-", key)`: replace every maximal run of whitespace with
a single hyphen.  The Boolean argument records whether the previous
character was part of a whitespace run. -/
def collapseSpacesAux : Bool → List Char → List Char
  | _, [] => []
  | prevSpace, c :: rest =>
      if isPySpace c then
        if prevSpace then collapseSpacesAux true rest
        else '-' :: collapseSpacesAux true rest
      else c :: collapseSpacesAux false rest

/-- `BaseAgent._generate_id_from_name` (base.py lines 46-53): drop every
character that is not a letter, whitespace, or a hyphen; replace whitespace
runs with single hyphens; lowercase. -/
def BaseAgent.generate_id_from_name (name : String) : String :=
  ⟨(collapseSpacesAux false (name.data.filter keepIdChar)).map Char.toLower⟩

/-- `self.id = options.id or self._generate_id_from_name(self.name)`
(base.py line 37) — Python `or` falls through on falsy values, i.e. on
`None` and on the empty string. -/
def BaseAgent.agentId (options_id : Option String) (name : String) : String :=
  match options_id with
  | some s => if s = "" then BaseAgent.generate_id_from_name name else s
  | none => BaseAgent.generate_id_from_name name

/-- The id derivation as the spec words it — "lowercase, non-alphabetic
characters stripped, spaces → hyphens": every non-alphabetic character
other than whitespace is stripped (in particular hyphens are), whitespace
runs become hyphens, and the result is lowercased.  Stated for comparison
with `BaseAgent.generate_id_from_name`. -/
def specIdFromName (name : String) : String :=
  ⟨(collapseSpacesAux false (name.data.filter fun c => c.isAlpha || isPySpace c)).map Char.toLower⟩

/-- The fixed-size chunking loop of the streaming adapters
(`for i in range(0, len(response), chunk_size): yield response[i:i+chunk_size]`,
router_agent.py lines 370-375 and planning_agent.py lines 386-389), rendered
as recursion on the remaining characters: each iteration yields the next
`chunk_size` characters.  A chunk size of 0 is rejected by Python `range`;
here it yields no chunks. -/
def chunkChars (chunk_size : Nat) (l : List Char) : List (List Char) :=
  if _h : l = [] ∨ chunk_size = 0 then []
  else l.take chunk_size :: chunkChars chunk_size (l.drop chunk_size)
termination_by l.length
decreasing_by
  push_neg at _h
  simp only [List.length_drop]
  exact Nat.sub_lt (List.length_pos.mpr _h.1) (Nat.pos_of_ne_zero _h.2)

/-- The streaming adapter on strings: split into fixed-size character
chunks, in order. -/
def astream_chunks (response : String) (chunk_size : Nat) : List String :=
  (chunkChars chunk_size response.data).map fun cs => ⟨cs⟩

/-- Concatenation of the yielded chunks, in order. -/
def concatChunks : List String → String
  | [] => ""
  | c :: rest => c ++ concatChunks rest

/-- A concrete delegate agent, used to instantiate closed statements. -/
def billingAgent : RAgent := ⟨"billing", fun _ _ => "A-response"⟩

/-- A concrete router environment with a fixed direct-LLM behaviour. -/
def mkRouterEnv (classify : Option RAgent × ℚ × String)
    (judge : Option JudgeDict) (refi : Option String) : RouterEnv where
  llm := fun p _ => "llm:" ++ p
  classify := classify
  judgeParse := judge
  refineCall := refi

/-- A parsed judge verdict requesting refinement with score 0.69. -/
def judge69 : JudgeDict :=
  ⟨some true, some (69/100), some "weak", some true, some "fix it"⟩

/-- A parsed judge verdict requesting refinement with score 0.70. -/
def judge70 : JudgeDict :=
  ⟨some true, some (70/100), some "ok", some true, some "fix it"⟩

/-- A concrete fan-out agent that succeeds. -/
def agentA : PAgent := ⟨"id-a", "Alpha", fun _ _ => Except.ok "alpha-out"⟩

/-- A concrete fan-out agent whose task raises. -/
def agentB : PAgent := ⟨"id-b", "Beta", fun _ _ => Except.error "boom"⟩

/-- A concrete fan-out agent that succeeds. -/
def agentC : PAgent := ⟨"id-c", "Gamma", fun _ _ => Except.ok "gamma-out"⟩

/-- A concrete agent with id `id-1` and the shared name `Dup`. -/
def agentD1 : PAgent := ⟨"id-1", "Dup", fun _ _ => Except.ok "first"⟩

/-- A concrete agent with id `id-2` and the shared name `Dup`. -/
def agentD2 : PAgent := ⟨"id-2", "Dup", fun _ _ => Except.ok "second"⟩

/-- A concrete tool whose argument synthesis and invocation succeed. -/
def calcTool : ToolModel := ⟨Except.ok "args-json", fun _ => Except.ok "42"⟩

/-- A concrete tool whose invocation raises. -/
def failTool : ToolModel := ⟨Except.ok "args-json", fun _ => Except.error "tool-crash"⟩

/-- A concrete tool whose LLM-synthesized arguments do not parse as JSON. -/
def badArgsTool : ToolModel := ⟨Except.error "json-decode-fail", fun _ => Except.ok "unused"⟩

/-- A concrete tool map. -/
def toolsW : List (String × ToolModel) := [("calc", calcTool), ("bomb", failTool)]

/-- A concrete planning environment. -/
def planEnvW : PlanEnv where
  llm := fun d _ => d
  tools_dict := toolsW
  summarize := fun _ results => joinNl results

/-- A concrete plan: a direct step, a tool step, and a third step beyond the
cap whose required tool would raise if it were ever executed. -/
def planW : List PlanStep :=
  [⟨"analyze", none, false⟩, ⟨"compute", some "calc", true⟩,
   ⟨"broken", some "bomb", true⟩]

/-
Theorems.
-/

/-- C1 (amended): for every classification outcome of a Routing run, if the
confidence is below 0.6 or no agent was selected, no delegate `achat` is
ever invoked and the run instead returns the direct LLM completion of the
query prefixed by the literal string `"Answer this question: "`; if the
confidence is at least 0.6 and an agent was selected, the full query and
history are delegated to that agent.  The boundary is strict (witnessed at
0.59 versus 0.60). -/
theorem C1_router_confidence_gate (env : RouterEnv) (query : String)
    (hist : List ChatMessage) (t : ℚ) (agent? : Option RAgent) (conf : ℚ)
    (reasoning : String) (hc : env.classify = (agent?, conf, reasoning)) :
    ((conf < 6/10 ∨ agent? = none) →
      (RouterAgent.run env query hist t).1
          = env.llm ("Answer this question: " ++ query) hist ∧
      ∀ a q h, RouterEvent.agentChat a q h ∉ (RouterAgent.run env query hist t).2) ∧
    (∀ a, agent? = some a → 6/10 ≤ conf →
      RouterEvent.agentChat a.name query hist ∈ (RouterAgent.run env query hist t).2) := by
  unfold RouterAgent.run
  rw [hc]
  cases agent? with
  | none =>
      refine ⟨fun _ => ⟨rfl, ?_⟩, ?_⟩
      · intro a q h hmem
        simp at hmem
      · intro a ha
        exact absurd ha (by simp)
  | some a0 =>
      by_cases hlt : conf < 6/10
      · refine ⟨fun _ => ⟨by simp [if_pos hlt], ?_⟩, ?_⟩
        · intro a q h hmem
          simp [if_pos hlt] at hmem
        · intro a ha hge
          exact absurd hlt (not_lt.mpr hge)
      · refine ⟨fun hor => ?_, ?_⟩
        · rcases hor with h1 | h2
          · exact absurd h1 hlt
          · exact absurd h2 (by simp)
        · intro a ha _
          obtain rfl : a0 = a := by injection ha
          simp only [if_neg hlt]
          by_cases hg : (RouterAgent.validate_response env.judgeParse).needs_refinement.getD false = true ∧
              (RouterAgent.validate_response env.judgeParse).score.getD 1 < t
          · simp [if_pos hg]
          · simp [if_neg hg]

/-- C1 counterexample to the claim as stated: in a low-confidence run the
LLM capability is not called with the raw query — the only direct LLM call
uses the prefixed prompt `"Answer this question: " ++ query`. -/
theorem C1_counterexample :
    (RouterAgent.run (mkRouterEnv (some billingAgent, 59/100, "r") none none)
        "hi" [] (7/10)).2
      = [RouterEvent.llmDirect ("Answer this question: " ++ "hi") []] ∧
    RouterEvent.llmDirect "hi" []
      ∉ (RouterAgent.run (mkRouterEnv (some billingAgent, 59/100, "r") none none)
          "hi" [] (7/10)).2 := by
  constructor
  · have hlt : (59/100 : ℚ) < 6/10 := by norm_num
    simp [RouterAgent.run, mkRouterEnv, if_pos hlt]
  · have hlt : (59/100 : ℚ) < 6/10 := by norm_num
    simp [RouterAgent.run, mkRouterEnv, if_pos hlt]

/-- Closed instance of `C1_router_confidence_gate` at the strict boundary:
confidence 0.59 bypasses delegation, confidence 0.60 delegates. -/
theorem C1_router_confidence_gate_witness :
    (RouterAgent.run (mkRouterEnv (some billingAgent, 59/100, "r") none none)
        "q" [] (7/10)).1
      = (mkRouterEnv (some billingAgent, 59/100, "r") none none).llm
          ("Answer this question: " ++ "q") [] ∧
    RouterEvent.agentChat "billing" "q" []
      ∈ (RouterAgent.run (mkRouterEnv (some billingAgent, 60/100, "r") none none)
          "q" [] (7/10)).2 := by
  constructor
  · exact ((C1_router_confidence_gate
      (mkRouterEnv (some billingAgent, 59/100, "r") none none)
      "q" [] (7/10) (some billingAgent) (59/100) "r" rfl).1
      (Or.inl (by norm_num))).1
  · have h := (C1_router_confidence_gate
      (mkRouterEnv (some billingAgent, 60/100, "r") none none)
      "q" [] (7/10) (some billingAgent) (60/100) "r" rfl).2
      billingAgent rfl (by norm_num)
    simpa [billingAgent] using h

/-- C2: when the validation judge reply is not parseable as JSON, the
resulting validation verdict is exactly the accepting default —
is_valid = true, score = 0.75, needs_refinement = false — regardless of the
judge text, and no refinement happens in that run. -/
theorem C2_validation_default_on_parse_failure (env : RouterEnv) (query : String)
    (hist : List ChatMessage) (t : ℚ) (hj : env.judgeParse = none) :
    RouterAgent.validate_response env.judgeParse = defaultValidation ∧
    (RouterAgent.validate_response env.judgeParse).is_valid = some true ∧
    (RouterAgent.validate_response env.judgeParse).score = some (3/4) ∧
    (RouterAgent.validate_response env.judgeParse).needs_refinement = some false ∧
    RouterEvent.refine ∉ (RouterAgent.run env query hist t).2 := by
  refine ⟨by rw [hj]; rfl, by rw [hj]; rfl, by rw [hj]; rfl, by rw [hj]; rfl, ?_⟩
  unfold RouterAgent.run
  rcases hcl : env.classify with ⟨agent?, conf, r⟩
  cases agent? with
  | none => simp
  | some a0 =>
      by_cases hlt : conf < 6/10
      · simp [if_pos hlt]
      · have hg : ¬ ((RouterAgent.validate_response env.judgeParse).needs_refinement.getD false = true ∧
            (RouterAgent.validate_response env.judgeParse).score.getD 1 < t) := by
          rw [hj]
          intro hcontra
          simpa [RouterAgent.validate_response, defaultValidation] using hcontra.1
        simp [if_neg hlt, if_neg hg]

/-- Closed instance of `C2_validation_default_on_parse_failure`. -/
theorem C2_validation_default_witness :
    RouterAgent.validate_response
        (mkRouterEnv (some billingAgent, 9/10, "r") none none).judgeParse
      = defaultValidation ∧
    (RouterAgent.validate_response
        (mkRouterEnv (some billingAgent, 9/10, "r") none none).judgeParse).is_valid
      = some true ∧
    (RouterAgent.validate_response
        (mkRouterEnv (some billingAgent, 9/10, "r") none none).judgeParse).score
      = some (3/4) ∧
    (RouterAgent.validate_response
        (mkRouterEnv (some billingAgent, 9/10, "r") none none).judgeParse).needs_refinement
      = some false ∧
    RouterEvent.refine
      ∉ (RouterAgent.run (mkRouterEnv (some billingAgent, 9/10, "r") none none)
          "q" [] (7/10)).2 :=
  C2_validation_default_on_parse_failure
    (mkRouterEnv (some billingAgent, 9/10, "r") none none) "q" [] (7/10) rfl

/-- C3: in a delegating run, refinement is invoked iff the verdict requests
it and its score is strictly below the validation threshold; and when the
refinement call itself fails the unrefined agent response is returned. -/
theorem C3_refinement_gate (env : RouterEnv) (query : String)
    (hist : List ChatMessage) (t : ℚ) (a : RAgent) (conf : ℚ) (r : String)
    (hc : env.classify = (some a, conf, r)) (hconf : 6/10 ≤ conf) :
    (RouterEvent.refine ∈ (RouterAgent.run env query hist t).2 ↔
      (RouterAgent.validate_response env.judgeParse).needs_refinement.getD false = true ∧
      (RouterAgent.validate_response env.judgeParse).score.getD 1 < t) ∧
    (env.refineCall = none →
      (RouterAgent.run env query hist t).1 = a.achat query hist) := by
  have hlt : ¬ conf < 6/10 := not_lt.mpr hconf
  unfold RouterAgent.run
  rw [hc]
  simp only [if_neg hlt]
  by_cases hg : (RouterAgent.validate_response env.judgeParse).needs_refinement.getD false = true ∧
      (RouterAgent.validate_response env.judgeParse).score.getD 1 < t
  · refine ⟨?_, ?_⟩
    · simp [if_pos hg, hg]
    · intro hr
      simp [if_pos hg, RouterAgent.refine_response, hr]
  · refine ⟨?_, ?_⟩
    · simp [if_neg hg, hg]
    · intro hr
      simp [if_neg hg]

/-- Closed instance of `C3_refinement_gate`: with threshold 0.7, a verdict
with needs_refinement and score 0.69 triggers refinement, score 0.70 does
not, and a failing refinement call returns the unrefined response. -/
theorem C3_refinement_gate_witness :
    RouterEvent.refine
      ∈ (RouterAgent.run (mkRouterEnv (some billingAgent, 9/10, "r") (some judge69) none)
          "q" [] (7/10)).2 ∧
    RouterEvent.refine
      ∉ (RouterAgent.run (mkRouterEnv (some billingAgent, 9/10, "r") (some judge70) none)
          "q" [] (7/10)).2 ∧
    (RouterAgent.run (mkRouterEnv (some billingAgent, 9/10, "r") (some judge69) none)
        "q" [] (7/10)).1 = billingAgent.achat "q" [] := by
  have h69 := C3_refinement_gate
    (mkRouterEnv (some billingAgent, 9/10, "r") (some judge69) none)
    "q" [] (7/10) billingAgent (9/10) "r" rfl (by norm_num)
  have h70 := C3_refinement_gate
    (mkRouterEnv (some billingAgent, 9/10, "r") (some judge70) none)
    "q" [] (7/10) billingAgent (9/10) "r" rfl (by norm_num)
  refine ⟨?_, ?_, ?_⟩
  · exact h69.1.mpr (by norm_num [RouterAgent.validate_response, mkRouterEnv, judge69])
  · intro hmem
    have := h70.1.mp hmem
    have hscore := this.2
    norm_num [RouterAgent.validate_response, mkRouterEnv, judge70] at hscore
  · exact h69.2 rfl

theorem strData_append (s t : String) : (s ++ t).data = s.data ++ t.data := rfl

theorem strContains_refl (s : String) : strContains s s := List.infix_refl _

theorem strContains_appendLeft (u : String) {s t : String} (h : strContains s t) :
    strContains (u ++ s) t := by
  unfold strContains at *
  rw [strData_append]
  exact h.trans (List.suffix_append u.data s.data).isInfix

theorem strContains_appendRight (u : String) {s t : String} (h : strContains s t) :
    strContains (s ++ u) t := by
  unfold strContains at *
  rw [strData_append]
  exact h.trans (List.prefix_append s.data u.data).isInfix

theorem strContains_formatOutput (name result : String) :
    strContains (formatOutput name result) result := by
  unfold formatOutput
  exact strContains_appendRight _ (strContains_appendLeft _ (strContains_refl result))

theorem strContains_integrationPrompt (query block schema t : String)
    (h : strContains block t) :
    strContains (integrationPrompt query block schema) t := by
  unfold integrationPrompt
  exact strContains_appendRight _ (strContains_appendRight _
    (strContains_appendRight _ (strContains_appendLeft _ h)))

/-- C4: a raised exception in one agent of a three-agent parallel fan-out is
isolated: it is recorded under that agent's name as the inline string
`"Error: <message>"`, both siblings' results are still collected in order,
and the integration prompt contains the two successful outputs plus the
error string. -/
theorem C4_parallel_failure_isolation (A B C : PAgent) (query eB rA rC schema : String)
    (hist : List ChatMessage)
    (hA : A.achat query hist = Except.ok rA)
    (hB : B.achat query hist = Except.error eB)
    (hC : C.achat query hist = Except.ok rC)
    (hAB : A.name ≠ B.name) (hAC : A.name ≠ C.name) (hBC : B.name ≠ C.name) :
    ParallelAgent.execute_parallel [A, B, C] query hist
      = [(A.name, rA), (B.name, "Error: " ++ eB), (C.name, rC)] ∧
    strContains (integrationPrompt query
        (agentOutputsBlock (ParallelAgent.execute_parallel [A, B, C] query hist))
        schema) rA ∧
    strContains (integrationPrompt query
        (agentOutputsBlock (ParallelAgent.execute_parallel [A, B, C] query hist))
        schema) ("Error: " ++ eB) ∧
    strContains (integrationPrompt query
        (agentOutputsBlock (ParallelAgent.execute_parallel [A, B, C] query hist))
        schema) rC := by
  have hres : ParallelAgent.execute_parallel [A, B, C] query hist
      = [(A.name, rA), (B.name, "Error: " ++ eB), (C.name, rC)] := by
    simp [ParallelAgent.execute_parallel, dictSet, taskOutcome, hA, hB, hC, hAB, hAC, hBC]
  refine ⟨hres, ?_, ?_, ?_⟩ <;> rw [hres]
  · refine strContains_integrationPrompt _ _ _ _ ?_
    simp only [agentOutputsBlock, List.map, joinNl]
    exact strContains_appendRight _
      (strContains_appendRight _ (strContains_formatOutput A.name rA))
  · refine strContains_integrationPrompt _ _ _ _ ?_
    simp only [agentOutputsBlock, List.map, joinNl]
    exact strContains_appendLeft _ (strContains_appendRight _
      (strContains_appendRight _ (strContains_formatOutput B.name ("Error: " ++ eB))))
  · refine strContains_integrationPrompt _ _ _ _ ?_
    simp only [agentOutputsBlock, List.map, joinNl]
    exact strContains_appendLeft _
      (strContains_appendLeft _ (strContains_formatOutput C.name rC))

/-- Closed instance of `C4_parallel_failure_isolation`: Alpha and Gamma
succeed while Beta raises `boom`. -/
theorem C4_parallel_failure_isolation_witness :
    ParallelAgent.execute_parallel [agentA, agentB, agentC] "summarize" []
      = [("Alpha", "alpha-out"), ("Beta", "Error: " ++ "boom"), ("Gamma", "gamma-out")] ∧
    strContains (integrationPrompt "summarize"
        (agentOutputsBlock (ParallelAgent.execute_parallel [agentA, agentB, agentC]
          "summarize" [])) "[No specific output schema].") "alpha-out" ∧
    strContains (integrationPrompt "summarize"
        (agentOutputsBlock (ParallelAgent.execute_parallel [agentA, agentB, agentC]
          "summarize" [])) "[No specific output schema].") ("Error: " ++ "boom") ∧
    strContains (integrationPrompt "summarize"
        (agentOutputsBlock (ParallelAgent.execute_parallel [agentA, agentB, agentC]
          "summarize" [])) "[No specific output schema].") "gamma-out" := by
  have h := C4_parallel_failure_isolation agentA agentB agentC
    "summarize" "boom" "alpha-out" "gamma-out" "[No specific output schema]." []
    rfl rfl rfl (by decide) (by decide) (by decide)
  simpa [agentA, agentB, agentC] using h

/-- C10: the parallel fan-out keys its result map by agent name, so two
registered agents with distinct ids but the same name produce a single
entry for that name — the later-awaited task overwrites the earlier one —
and the integration prompt carries exactly one labelled block for it. -/
theorem C10_parallel_name_collision (a1 a2 : PAgent) (query : String)
    (hist : List ChatMessage) (hname : a1.name = a2.name) (hid : a1.id ≠ a2.id) :
    (register_agent (register_agent [] a1) a2).map Prod.snd = [a1, a2] ∧
    ParallelAgent.execute_parallel [a1, a2] query hist
      = [(a1.name, taskOutcome a2 query hist)] ∧
    agentOutputsBlock (ParallelAgent.execute_parallel [a1, a2] query hist)
      = formatOutput a1.name (taskOutcome a2 query hist) := by
  refine ⟨?_, ?_, ?_⟩
  · simp [register_agent, dictSet, hid]
  · simp [ParallelAgent.execute_parallel, dictSet, hname]
  · simp [ParallelAgent.execute_parallel, dictSet, hname, agentOutputsBlock, joinNl]

/-- Closed instance of `C10_parallel_name_collision`: `Dup`-named agents
with ids `id-1` and `id-2`; only the second agent's output survives. -/
theorem C10_parallel_name_collision_witness :
    (register_agent (register_agent [] agentD1) agentD2).map Prod.snd
      = [agentD1, agentD2] ∧
    ParallelAgent.execute_parallel [agentD1, agentD2] "q" []
      = [("Dup", "second")] ∧
    agentOutputsBlock (ParallelAgent.execute_parallel [agentD1, agentD2] "q" [])
      = formatOutput "Dup" "second" := by
  have h := C10_parallel_name_collision agentD1 agentD2 "q" [] (by decide) (by decide)
  simpa [agentD1, agentD2, taskOutcome] using h

/-- C5: every plan built by `_get_initial_plan` satisfies the invariant that
a tool-requiring step names a registered tool (steps naming an unknown tool
are dropped at construction and never appear); the tool-dropping filter is
the identity on any plan satisfying the invariant, and in particular
re-applying it to a freshly built plan changes nothing. -/
theorem C5_plan_tool_invariant (toolNames : List String) (stepDatas : List StepData) :
    (∀ s ∈ PlanningAgent.buildPlanSteps toolNames stepDatas,
        s.requires_tool = true → ∃ n, s.tool_name = some n ∧ n ∈ toolNames) ∧
    (∀ steps : List PlanStep,
        (∀ s ∈ steps, s.requires_tool = true → toolKnown toolNames s.tool_name = true) →
        PlanningAgent.dropUnknownToolSteps toolNames steps = steps) ∧
    PlanningAgent.dropUnknownToolSteps toolNames
        (PlanningAgent.buildPlanSteps toolNames stepDatas)
      = PlanningAgent.buildPlanSteps toolNames stepDatas := by
  have hknown : ∀ s ∈ PlanningAgent.buildPlanSteps toolNames stepDatas,
      s.requires_tool = true → toolKnown toolNames s.tool_name = true := by
    intro s hs hreq
    unfold PlanningAgent.buildPlanSteps at hs
    obtain ⟨sd, hsd, heq⟩ := List.mem_filterMap.mp hs
    by_cases hcond : sd.requires_tool && !toolKnown toolNames sd.tool_name
    · rw [if_pos hcond] at heq
      exact absurd heq (by simp)
    · rw [if_neg hcond] at heq
      obtain rfl : (⟨sd.description, sd.tool_name, sd.requires_tool⟩ : PlanStep) = s := by
        injection heq
      simp only [Bool.and_eq_true, Bool.not_eq_true'] at hcond
      rcases Decidable.not_and_iff_or_not.mp hcond with h1 | h2
      · exact absurd hreq h1
      · simpa using h2
  have hid : ∀ steps : List PlanStep,
      (∀ s ∈ steps, s.requires_tool = true → toolKnown toolNames s.tool_name = true) →
      PlanningAgent.dropUnknownToolSteps toolNames steps = steps := by
    intro steps hsteps
    unfold PlanningAgent.dropUnknownToolSteps
    rw [List.filter_eq_self]
    intro s hs
    by_cases hreq : s.requires_tool = true
    · simp [hreq, hsteps s hs hreq]
    · simp [Bool.eq_false_iff.mpr hreq]
  refine ⟨?_, hid, hid _ hknown⟩
  intro s hs hreq
  have hk := hknown s hs hreq
  cases htn : s.tool_name with
  | none => rw [htn] at hk; simp [toolKnown] at hk
  | some n =>
      rw [htn] at hk
      refine ⟨n, rfl, ?_⟩
      simpa [toolKnown] using hk

/-- Closed instance of `C5_plan_tool_invariant`: a plan whose second step
names an unregistered tool keeps only the valid steps, the invariant holds
for them, and the filter is the identity on the result. -/
theorem C5_plan_tool_invariant_witness :
    PlanningAgent.buildPlanSteps ["calc"]
        [⟨"think", false, none⟩, ⟨"bad", true, some "ghost"⟩, ⟨"add", true, some "calc"⟩]
      = [⟨"think", none, false⟩, ⟨"add", some "calc", true⟩] ∧
    (∀ s ∈ PlanningAgent.buildPlanSteps ["calc"]
        [⟨"think", false, none⟩, ⟨"bad", true, some "ghost"⟩, ⟨"add", true, some "calc"⟩],
      s.requires_tool = true → ∃ n, s.tool_name = some n ∧ n ∈ ["calc"]) ∧
    PlanningAgent.dropUnknownToolSteps ["calc"]
        (PlanningAgent.buildPlanSteps ["calc"]
          [⟨"think", false, none⟩, ⟨"bad", true, some "ghost"⟩, ⟨"add", true, some "calc"⟩])
      = PlanningAgent.buildPlanSteps ["calc"]
          [⟨"think", false, none⟩, ⟨"bad", true, some "ghost"⟩, ⟨"add", true, some "calc"⟩] := by
  have h := C5_plan_tool_invariant ["calc"]
    [⟨"think", false, none⟩, ⟨"bad", true, some "ghost"⟩, ⟨"add", true, some "calc"⟩]
  exact ⟨by decide, h.1, h.2.2⟩

/-- C6 counterexample to the claim as stated: a required tool call whose
name is not in the tool map returns `None` (nothing) instead of propagating
an error. -/
theorem C6_counterexample :
    BaseAgent.execute_tool [] (some "ghost") "lookup" true = Except.ok none := rfl

/-- C6 (amended): when a tool call fails during argument synthesis, JSON
parsing, or the tool invocation itself, the error propagates when the tool
was required; a non-required call always returns nothing; but a failure to
resolve the tool (absent or empty name, or a name not in the tool map)
returns nothing even when the tool was required. -/
theorem C6_execute_tool_failure_semantics (tools_dict : List (String × ToolModel))
    (tool_name : Option String) (description : String) :
    BaseAgent.execute_tool tools_dict tool_name description false = Except.ok none ∧
    (pyFalsy tool_name = true →
      BaseAgent.execute_tool tools_dict tool_name description true = Except.ok none) ∧
    (dictGet tools_dict tool_name = none →
      BaseAgent.execute_tool tools_dict tool_name description true = Except.ok none) ∧
    (∀ tool e, pyFalsy tool_name = false → dictGet tools_dict tool_name = some tool →
      tryCallTool tool = Except.error e →
      BaseAgent.execute_tool tools_dict tool_name description true = Except.error e) ∧
    (∀ tool res, pyFalsy tool_name = false → dictGet tools_dict tool_name = some tool →
      tryCallTool tool = Except.ok res →
      BaseAgent.execute_tool tools_dict tool_name description true = Except.ok (some res)) := by
  refine ⟨by simp [BaseAgent.execute_tool], ?_, ?_, ?_, ?_⟩
  · intro hf
    simp [BaseAgent.execute_tool, hf]
  · intro hget
    by_cases hf : pyFalsy tool_name = true
    · simp [BaseAgent.execute_tool, hf]
    · simp [BaseAgent.execute_tool, Bool.eq_false_iff.mpr hf, hget]
  · intro tool e hf hget htry
    simp [BaseAgent.execute_tool, hf, hget, htry]
  · intro tool res hf hget htry
    simp [BaseAgent.execute_tool, hf, hget, htry]

/-- Closed instance of `C6_execute_tool_failure_semantics`: a non-required
call returns nothing; a falsy name returns nothing; an unknown name returns
nothing even though required; a required crashing tool propagates its
error; a required healthy tool returns its result. -/
theorem C6_execute_tool_failure_semantics_witness :
    BaseAgent.execute_tool toolsW (some "calc") "desc" false = Except.ok none ∧
    BaseAgent.execute_tool toolsW none "desc" true = Except.ok none ∧
    BaseAgent.execute_tool toolsW (some "ghost") "desc" true = Except.ok none ∧
    BaseAgent.execute_tool toolsW (some "bomb") "desc" true
      = Except.error "tool-crash" ∧
    BaseAgent.execute_tool toolsW (some "calc") "desc" true
      = Except.ok (some "42") := by
  refine ⟨(C6_execute_tool_failure_semantics toolsW (some "calc") "desc").1,
    (C6_execute_tool_failure_semantics toolsW none "desc").2.1 rfl,
    (C6_execute_tool_failure_semantics toolsW (some "ghost") "desc").2.2.1 rfl,
    (C6_execute_tool_failure_semantics toolsW (some "bomb") "desc").2.2.2.1
      failTool "tool-crash" rfl rfl rfl,
    (C6_execute_tool_failure_semantics toolsW (some "calc") "desc").2.2.2.2
      calcTool "42" rfl rfl rfl⟩

theorem chunkChars_flatten_aux (k : Nat) (hk : k ≠ 0) :
    ∀ (n : Nat) (l : List Char), l.length ≤ n → (chunkChars k l).flatten = l := by
  intro n
  induction n with
  | zero =>
      intro l hl
      have hnil : l = [] := List.eq_nil_of_length_eq_zero (Nat.le_zero.mp hl)
      subst hnil
      rw [chunkChars]
      simp
  | succ n ih =>
      intro l hl
      rw [chunkChars]
      split
      · next h => simp [h.resolve_right hk]
      · next h =>
          push_neg at h
          have hpos : 0 < l.length := List.length_pos.mpr h.1
          have hd : (l.drop k).length ≤ n := by
            simp only [List.length_drop]
            omega
          rw [List.flatten_cons, ih (l.drop k) hd, List.take_append_drop]

theorem chunkChars_flatten (k : Nat) (hk : k ≠ 0) (l : List Char) :
    (chunkChars k l).flatten = l :=
  chunkChars_flatten_aux k hk l.length l le_rfl

theorem chunkChars_ne_nil_aux (k : Nat) (hk : k ≠ 0) :
    ∀ (n : Nat) (l : List Char), l.length ≤ n → ∀ c ∈ chunkChars k l, c ≠ [] := by
  intro n
  induction n with
  | zero =>
      intro l hl
      have hnil : l = [] := List.eq_nil_of_length_eq_zero (Nat.le_zero.mp hl)
      subst hnil
      rw [chunkChars]
      simp
  | succ n ih =>
      intro l hl
      rw [chunkChars]
      split
      · simp
      · next h =>
          push_neg at h
          have hpos : 0 < l.length := List.length_pos.mpr h.1
          have hd : (l.drop k).length ≤ n := by
            simp only [List.length_drop]
            omega
          intro c hc
          rcases List.mem_cons.mp hc with rfl | hmem
          · simp [List.take_eq_nil_iff, h.1, hk]
          · exact ih (l.drop k) hd c hmem

theorem chunkChars_ne_nil (k : Nat) (hk : k ≠ 0) (l : List Char) :
    ∀ c ∈ chunkChars k l, c ≠ [] :=
  chunkChars_ne_nil_aux k hk l.length l le_rfl

theorem concatChunks_map_mk (ls : List (List Char)) :
    concatChunks (ls.map fun cs => (⟨cs⟩ : String)) = ⟨ls.flatten⟩ := by
  induction ls with
  | nil => rfl
  | cons x xs ih =>
      simp only [List.map_cons, concatChunks, ih, List.flatten_cons]
      rfl

/-- C7: for every string and every nonzero chunk size (in particular 1, 5,
and length+1), concatenating the chunks yielded by the streaming adapter in
order reproduces the string exactly, and no yielded chunk is empty. -/
theorem C7_chunk_roundtrip (s : String) (k : Nat) (hk : 1 ≤ k) :
    concatChunks (astream_chunks s k) = s ∧
    ∀ c ∈ astream_chunks s k, c ≠ "" := by
  have hk0 : k ≠ 0 := by omega
  constructor
  · unfold astream_chunks
    rw [concatChunks_map_mk, chunkChars_flatten k hk0]
  · intro c hc
    unfold astream_chunks at hc
    obtain ⟨cs, hcs, rfl⟩ := List.mem_map.mp hc
    have hne := chunkChars_ne_nil k hk0 s.data cs hcs
    intro hcontra
    exact hne (congrArg String.data hcontra)

/-- Closed instance of `C7_chunk_roundtrip` on `"hello world"` with chunk
sizes 1, 5, and length+1. -/
theorem C7_chunk_roundtrip_witness :
    (concatChunks (astream_chunks "hello world" 1) = "hello world" ∧
      ∀ c ∈ astream_chunks "hello world" 1, c ≠ "") ∧
    (concatChunks (astream_chunks "hello world" 5) = "hello world" ∧
      ∀ c ∈ astream_chunks "hello world" 5, c ≠ "") ∧
    (concatChunks (astream_chunks "hello world" ("hello world".length + 1))
        = "hello world" ∧
      ∀ c ∈ astream_chunks "hello world" ("hello world".length + 1), c ≠ "") :=
  ⟨C7_chunk_roundtrip "hello world" 1 (by decide),
   C7_chunk_roundtrip "hello world" 5 (by decide),
   C7_chunk_roundtrip "hello world" ("hello world".length + 1) (by simp)⟩

theorem execPlanSteps_take (env : PlanEnv) (hist : List ChatMessage) (m : Nat) :
    ∀ (l : List PlanStep) (n : Nat),
      PlanningAgent.execPlanSteps env hist m n l
        = PlanningAgent.execPlanSteps env hist m n (l.take (m + 1 - n)) := by
  intro l
  induction l with
  | nil => intro n; rw [List.take_nil]
  | cons s rest ih =>
      intro n
      by_cases hmn : m < n
      · have h0 : m + 1 - n = 0 := by omega
        rw [h0, List.take_zero]
        simp [PlanningAgent.execPlanSteps, if_pos hmn]
      · have h1 : m + 1 - n = (m - n) + 1 := by omega
        have h2 : m + 1 - (n + 1) = m - n := by omega
        rw [h1, List.take_succ_cons]
        simp only [PlanningAgent.execPlanSteps, if_neg hmn]
        rw [ih (n + 1), h2]

theorem execPlanSteps_events (env : PlanEnv) (hist : List ChatMessage) (m : Nat) :
    ∀ (l : List PlanStep) (n : Nat) (results : List String) (events : List PlanEvent),
      PlanningAgent.execPlanSteps env hist m n l = Except.ok (results, events) →
      events.length ≤ m + 1 - n ∧ ∀ ev ∈ events, ∃ d, ev = PlanEvent.stepExec d := by
  intro l
  induction l with
  | nil =>
      intro n results events h
      simp only [PlanningAgent.execPlanSteps] at h
      obtain ⟨rfl, rfl⟩ : results = [] ∧ events = [] := by
        cases h
        exact ⟨rfl, rfl⟩
      simp
  | cons s rest ih =>
      intro n results events h
      simp only [PlanningAgent.execPlanSteps] at h
      by_cases hmn : m < n
      · rw [if_pos hmn] at h
        obtain ⟨rfl, rfl⟩ : results = [] ∧ events = [] := by
          cases h
          exact ⟨rfl, rfl⟩
        simp
      · rw [if_neg hmn] at h
        have hlen : ∀ (ev2 : List PlanEvent) (d : String),
            ev2.length ≤ m + 1 - (n + 1) →
            (PlanEvent.stepExec d :: ev2).length ≤ m + 1 - n := by
          intro ev2 d h2
          simp only [List.length_cons]
          omega
        by_cases hreq : s.requires_tool = true
        · rw [if_pos hreq] at h
          rcases hx : BaseAgent.execute_tool env.tools_dict s.tool_name s.description true with e | res
          · rw [hx] at h
            cases h
          · rw [hx] at h
            rcases hrec : PlanningAgent.execPlanSteps env hist m (n + 1) rest with e | p
            · rw [hrec] at h
              cases h
            · obtain ⟨res2, ev2⟩ := p
              rw [hrec] at h
              obtain ⟨rfl, rfl⟩ : results = res.toList ++ res2 ∧
                  events = PlanEvent.stepExec s.description :: ev2 := by
                cases h
                exact ⟨rfl, rfl⟩
              obtain ⟨ha, hb⟩ := ih (n + 1) res2 ev2 hrec
              refine ⟨hlen ev2 s.description ha, ?_⟩
              intro ev hev
              rcases List.mem_cons.mp hev with rfl | hev2
              · exact ⟨s.description, rfl⟩
              · exact hb ev hev2
        · rw [if_neg hreq] at h
          rcases hrec : PlanningAgent.execPlanSteps env hist m (n + 1) rest with e | p
          · rw [hrec] at h
            cases h
          · obtain ⟨res2, ev2⟩ := p
            rw [hrec] at h
            obtain ⟨rfl, rfl⟩ : results = env.llm s.description hist :: res2 ∧
                events = PlanEvent.stepExec s.description :: ev2 := by
              cases h
              exact ⟨rfl, rfl⟩
            obtain ⟨ha, hb⟩ := ih (n + 1) res2 ev2 hrec
            refine ⟨hlen ev2 s.description ha, ?_⟩
            intro ev hev
            rcases List.mem_cons.mp hev with rfl | hev2
            · exact ⟨s.description, rfl⟩
            · exact hb ev hev2

/-- C8: a Planning run executes at most `max_steps` plan steps — the run
result only depends on the first `max_steps` steps, so steps beyond the cap
are skipped without raising — and for every successful run the event list
consists of at most `max_steps` step-execution events followed by a single
summarization event whose results list is exactly the list the summary is
generated from. -/
theorem C8_planning_cap (env : PlanEnv) (query : String) (hist : List ChatMessage)
    (plan : List PlanStep) (max_steps : Nat) :
    PlanningAgent.run env query hist plan max_steps
      = PlanningAgent.run env query hist (plan.take max_steps) max_steps ∧
    ∀ resp events, PlanningAgent.run env query hist plan max_steps
        = Except.ok (resp, events) →
      ∃ results stepEvents,
        events = stepEvents ++ [PlanEvent.summarized query results] ∧
        resp = env.summarize query results ∧
        stepEvents.length ≤ max_steps ∧
        (∀ ev ∈ stepEvents, ∃ d, ev = PlanEvent.stepExec d) ∧
        (∀ results2, PlanEvent.summarized query results2 ∈ events →
          results2 = results) := by
  constructor
  · unfold PlanningAgent.run
    have ht := execPlanSteps_take env hist max_steps plan 1
    have h1 : max_steps + 1 - 1 = max_steps := by omega
    rw [h1] at ht
    rw [ht]
  · intro resp events h
    unfold PlanningAgent.run at h
    rcases hx : PlanningAgent.execPlanSteps env hist max_steps 1 plan with e | p
    · rw [hx] at h
      cases h
    · obtain ⟨results, stepEvents⟩ := p
      rw [hx] at h
      obtain ⟨rfl, rfl⟩ : resp = env.summarize query results ∧
          events = stepEvents ++ [PlanEvent.summarized query results] := by
        cases h
        exact ⟨rfl, rfl⟩
      obtain ⟨ha, hb⟩ := execPlanSteps_events env hist max_steps plan 1 results stepEvents hx
      refine ⟨results, stepEvents, rfl, rfl, by omega, hb, ?_⟩
      intro results2 hmem
      rcases List.mem_append.mp hmem with hin | hin
      · obtain ⟨d, hd⟩ := hb _ hin
        exact absurd hd (by simp)
      · have heq := List.mem_singleton.mp hin
        injection heq

/-- Closed instance of `C8_planning_cap`: a three-step plan run with
`max_steps = 2` equals the run of its two-step prefix — even though the
skipped third step would raise — and its event list is two step executions
followed by one summarization from the two collected results. -/
theorem C8_planning_cap_witness :
    PlanningAgent.run planEnvW "task" [] planW 2
      = PlanningAgent.run planEnvW "task" [] (planW.take 2) 2 ∧
    (∃ results stepEvents,
      [PlanEvent.stepExec "analyze", PlanEvent.stepExec "compute",
        PlanEvent.summarized "task" ["analyze", "42"]]
          = stepEvents ++ [PlanEvent.summarized "task" results] ∧
      joinNl ["analyze", "42"] = planEnvW.summarize "task" results ∧
      stepEvents.length ≤ 2 ∧
      (∀ ev ∈ stepEvents, ∃ d, ev = PlanEvent.stepExec d) ∧
      (∀ results2, PlanEvent.summarized "task" results2 ∈
          [PlanEvent.stepExec "analyze", PlanEvent.stepExec "compute",
            PlanEvent.summarized "task" ["analyze", "42"]] →
        results2 = results)) :=
  ⟨(C8_planning_cap planEnvW "task" [] planW 2).1,
   (C8_planning_cap planEnvW "task" [] planW 2).2
     (joinNl ["analyze", "42"])
     [PlanEvent.stepExec "analyze", PlanEvent.stepExec "compute",
       PlanEvent.summarized "task" ["analyze", "42"]] rfl⟩

theorem isUpper_toNat {c : Char} (h : c.isUpper = true) :
    65 ≤ c.toNat ∧ c.toNat ≤ 90 := by
  simp [Char.isUpper] at h
  obtain ⟨h1, h2⟩ := h
  constructor
  · exact UInt32.le_toNat_of_le (by decide) h1
  · exact UInt32.toNat_le_of_le (by decide) h2

theorem isLower_toLower (c : Char) (h : c.isAlpha = true) :
    (c.toLower).isLower = true := by
  by_cases hr : c.toNat ≥ 65 ∧ c.toNat ≤ 90
  · have hd : c.toNat = 65 ∨ c.toNat = 66 ∨ c.toNat = 67 ∨ c.toNat = 68 ∨ c.toNat = 69 ∨
        c.toNat = 70 ∨ c.toNat = 71 ∨ c.toNat = 72 ∨ c.toNat = 73 ∨ c.toNat = 74 ∨
        c.toNat = 75 ∨ c.toNat = 76 ∨ c.toNat = 77 ∨ c.toNat = 78 ∨ c.toNat = 79 ∨
        c.toNat = 80 ∨ c.toNat = 81 ∨ c.toNat = 82 ∨ c.toNat = 83 ∨ c.toNat = 84 ∨
        c.toNat = 85 ∨ c.toNat = 86 ∨ c.toNat = 87 ∨ c.toNat = 88 ∨ c.toNat = 89 ∨
        c.toNat = 90 := by omega
    simp only [Char.toLower, if_pos hr]
    rcases hd with h3|h3|h3|h3|h3|h3|h3|h3|h3|h3|h3|h3|h3|h3|h3|h3|h3|h3|h3|h3|h3|h3|h3|h3|h3|h3 <;>
      rw [h3] <;> decide
  · simp only [Char.toLower, if_neg hr]
    simp [Char.isAlpha] at h
    rcases h with hu | hl
    · exact absurd (isUpper_toNat hu) hr
    · exact hl

theorem toLower_hyphen : Char.toLower '-' = '-' := by decide

theorem isLower_not_pyspace (c : Char) (h : c.isLower = true) :
    isPySpace c = false := by
  by_contra hcon
  rw [Bool.not_eq_false] at hcon
  simp [isPySpace] at hcon
  rcases hcon with (((((rfl|rfl)|rfl)|rfl)|rfl)|rfl) <;> simp at h

theorem mem_collapseSpacesAux (c : Char) :
    ∀ (l : List Char) (b : Bool), c ∈ collapseSpacesAux b l →
      c = '-' ∨ (c ∈ l ∧ isPySpace c = false) := by
  intro l
  induction l with
  | nil => intro b h; simp [collapseSpacesAux] at h
  | cons x rest ih =>
      intro b h
      simp only [collapseSpacesAux] at h
      by_cases hx : isPySpace x = true
      · rw [if_pos hx] at h
        by_cases hb : b = true
        · rw [if_pos hb] at h
          rcases ih true h with h1 | ⟨h2, h3⟩
          · exact Or.inl h1
          · exact Or.inr ⟨List.mem_cons_of_mem x h2, h3⟩
        · rw [if_neg hb] at h
          rcases List.mem_cons.mp h with rfl | hm
          · exact Or.inl rfl
          · rcases ih true hm with h1 | ⟨h2, h3⟩
            · exact Or.inl h1
            · exact Or.inr ⟨List.mem_cons_of_mem x h2, h3⟩
      · rw [if_neg hx] at h
        rcases List.mem_cons.mp h with rfl | hm
        · exact Or.inr ⟨List.mem_cons_self c rest, by simpa using hx⟩
        · rcases ih false hm with h1 | ⟨h2, h3⟩
          · exact Or.inl h1
          · exact Or.inr ⟨List.mem_cons_of_mem x h2, h3⟩

/-- C9 (amended): an explicitly supplied non-empty id is used unchanged;
with no explicit id the id is derived from the name by the pure function
`_generate_id_from_name` (so equal names yield equal ids), which keeps only
letters, whitespace, and hyphens, replaces whitespace runs with single
hyphens, and lowercases — hence every character of a derived id is a
lowercase letter or a hyphen, and no whitespace survives. -/
theorem C9_agent_id (name s : String) (hs : s ≠ "") :
    BaseAgent.agentId (some s) name = s ∧
    BaseAgent.agentId none name = BaseAgent.generate_id_from_name name ∧
    (∀ name2, name = name2 →
      BaseAgent.generate_id_from_name name = BaseAgent.generate_id_from_name name2) ∧
    ∀ c ∈ (BaseAgent.generate_id_from_name name).data,
      (c.isLower = true ∨ c = '-') ∧ isPySpace c = false := by
  refine ⟨by simp [BaseAgent.agentId, hs], rfl, fun n2 h => by rw [h], ?_⟩
  intro c hc
  replace hc : c ∈ (collapseSpacesAux false (name.data.filter keepIdChar)).map Char.toLower := hc
  obtain ⟨c0, hc0, rfl⟩ := List.mem_map.mp hc
  rcases mem_collapseSpacesAux c0 _ false hc0 with rfl | ⟨hmem, hsp⟩
  · exact ⟨Or.inr toLower_hyphen, by rw [toLower_hyphen]; decide⟩
  · have hkeep := (List.mem_filter.mp hmem).2
    simp only [keepIdChar, Bool.or_eq_true] at hkeep
    rcases hkeep with (halpha | hspace) | hhyph
    · have hl := isLower_toLower c0 halpha
      exact ⟨Or.inl hl, isLower_not_pyspace _ hl⟩
    · rw [hsp] at hspace
      exact absurd hspace (by simp)
    · have hc0h : c0 = '-' := by simpa using hhyph
      subst hc0h
      exact ⟨Or.inr toLower_hyphen, by rw [toLower_hyphen]; decide⟩

/-- C9 counterexample to the claim as stated: hyphens are non-alphabetic
yet survive the derivation (`"a-b"` maps to `"a-b"`, not to the spec's
`"ab"`), and an explicitly supplied empty id is not used unchanged — Python
`or` replaces it with the derived id. -/
theorem C9_counterexample :
    BaseAgent.generate_id_from_name "a-b" = "a-b" ∧
    specIdFromName "a-b" = "ab" ∧
    BaseAgent.generate_id_from_name "a-b" ≠ specIdFromName "a-b" ∧
    BaseAgent.agentId (some "") "Bob" = "bob" ∧
    BaseAgent.agentId (some "") "Bob" ≠ "" := by
  refine ⟨?_, ?_, ?_, ?_, ?_⟩ <;> decide

/-- Closed instance of `C9_agent_id` at name `"Data Analyzer"` and explicit
id `"custom-id"`, together with the concrete derived id. -/
theorem C9_agent_id_witness :
    (BaseAgent.agentId (some "custom-id") "Data Analyzer" = "custom-id" ∧
      BaseAgent.agentId none "Data Analyzer"
        = BaseAgent.generate_id_from_name "Data Analyzer" ∧
      (∀ name2, "Data Analyzer" = name2 →
        BaseAgent.generate_id_from_name "Data Analyzer"
          = BaseAgent.generate_id_from_name name2) ∧
      ∀ c ∈ (BaseAgent.generate_id_from_name "Data Analyzer").data,
        (c.isLower = true ∨ c = '-') ∧ isPySpace c = false) ∧
    BaseAgent.generate_id_from_name "Data Analyzer" = "data-analyzer" :=
  ⟨C9_agent_id "Data Analyzer" "custom-id" (by decide), by decide⟩

end Maowrag
